import Mathlib

/-!
Verification of the go-rpio peripheral register control layer.

The Go source manipulates five memory-mapped 4096-byte register windows
(GPIO, clock, PWM, SPI, interrupt controller).  We embed the register
state shallowly: each window is a map from word index to a 32-bit value,
with hardware side effects modelled for the registers whose behaviour
the library relies on (write-1-to-set / write-1-to-clear pin-level
registers, write-1-to-clear event-detect latches, SPI control/status
read-back and FIFO).  Every operation additionally returns the list of
lock / register-access / sleep events it performs, in program order,
so that locking discipline and access ordering are provable.
-/

namespace RpioModel

/-- Truncation to 32 bits, as Go's `uint32` conversions and stores into
a `[]uint32` slice. -/
def u32 (n : Nat) : Nat := n % 2 ^ 32

/-- Go's AND-NOT (`a &^ b`) on `uint32` operands. -/
def andNot32 (a b : Nat) : Nat := a &&& ((2 ^ 32 - 1) ^^^ u32 b)

/-- The five mapped peripheral windows. -/
inductive WBank
  | gpioBank
  | clkBank
  | pwmBank
  | spiBank
  | intrBank
deriving DecidableEq

/-- One observable step of an operation: lock acquisition/release,
a register read or write, or a sleep (microseconds). -/
inductive Ev
  | lock
  | unlock
  | rd (b : WBank) (i : Nat)
  | wr (b : WBank) (i : Nat) (v : Nat)
  | sleep (us : Nat)
deriving DecidableEq

/- ### Address discovery (`readBase` / `getBase`)

`readBase` reads a 4-byte big-endian word of `/proc/device-tree/soc/ranges`
at a byte offset; any short read is an error, and a zero word is reported
as "base address not found".  `getBase` tries offset 4, then offset 8,
then falls back to the legacy constant `0x20000000`.  The translation
file is modelled as the list of its bytes. -/

/-- Big-endian 32-bit word from four bytes, as `binary.Read` with
`binary.BigEndian` into a `uint32`. -/
def be32 (b0 b1 b2 b3 : Nat) : Nat := ((b0 * 256 + b1) * 256 + b2) * 256 + b3

/-- `readBase(offset)`: `ReadAt` must deliver exactly 4 bytes, the word is
decoded big-endian, and a zero word is an error (`none`). -/
def readBase (file : List Nat) (offset : Nat) : Option Nat :=
  if offset + 4 ≤ file.length then
    let out := be32 (file.getD offset 0) (file.getD (offset + 1) 0)
      (file.getD (offset + 2) 0) (file.getD (offset + 3) 0)
    if out = 0 then none else some out
  else
    none

/-- `getBase()`: offset 4 (Pi 2/3), then offset 8 (Pi 4), then the
hard-coded Pi 1 base `0x20000000`. -/
def getBase (file : List Nat) : Nat :=
  match readBase file 4 with
  | some b => b
  | none =>
    match readBase file 8 with
    | some b => b
    | none => 0x20000000

/-- The 4-byte big-endian word at a byte offset, when readable:
the "readable word" the specification's address-discovery chain
speaks about. -/
def wordAt (file : List Nat) (offset : Nat) : Option Nat :=
  if offset + 4 ≤ file.length then
    some (be32 (file.getD offset 0) (file.getD (offset + 1) 0)
      (file.getD (offset + 2) 0) (file.getD (offset + 3) 0))
  else
    none

/-- Modelled from the spec: the resolution chain in the spec's words —
if the word at offset 4 is readable and non-zero it is the base,
otherwise if the word at offset 8 is readable and non-zero it is the
base, otherwise the legacy constant `0x20000000`. -/
def getBaseSpec (file : List Nat) : Nat :=
  match wordAt file 4 with
  | some v =>
    if v ≠ 0 then v
    else
      match wordAt file 8 with
      | some w => if w ≠ 0 then w else 0x20000000
      | none => 0x20000000
  | none =>
    match wordAt file 8 with
    | some w => if w ≠ 0 then w else 0x20000000
    | none => 0x20000000

/- ### Register state

The GPIO window needs hardware semantics for the registers the library
relies on: the set registers 7/8 and clear registers 10/11 are
write-1-to-set / write-1-to-clear views of the level registers 13/14,
and the event-detect status registers 16/17 are write-1-to-clear
latches.  All other GPIO registers, and the clock / PWM / interrupt
windows, hold the last 32-bit value written. -/

structure GpioBank where
  regs : Nat → Nat
  lvl0 : Nat
  lvl1 : Nat
  eds0 : Nat
  eds1 : Nat

def GpioBank.read (g : GpioBank) (r : Nat) : Nat :=
  if r = 13 then g.lvl0
  else if r = 14 then g.lvl1
  else if r = 16 then g.eds0
  else if r = 17 then g.eds1
  else g.regs r

def GpioBank.write (g : GpioBank) (r v : Nat) : GpioBank :=
  let v := u32 v
  if r = 7 then { g with lvl0 := u32 (g.lvl0 ||| v) }
  else if r = 8 then { g with lvl1 := u32 (g.lvl1 ||| v) }
  else if r = 10 then { g with lvl0 := andNot32 g.lvl0 v }
  else if r = 11 then { g with lvl1 := andNot32 g.lvl1 v }
  else if r = 16 then { g with eds0 := andNot32 g.eds0 v }
  else if r = 17 then { g with eds1 := andNot32 g.eds1 v }
  else { g with regs := fun i => if i = r then v else g.regs i }

/-- The SPI control/status register reads back the stored bits OR'd with
the device's read-only default bits `ro` (zero when the window is not
actually mapped, in which case the peripheral reads as all zeroes).
FIFO reads consume the device-supplied byte stream `rx`; FIFO writes
are logged in `tx`. -/
structure SpiHW where
  ro : Nat
  cs : Nat
  div : Nat
  rx : Nat → Nat
  rxCount : Nat
  tx : List Nat

def SpiHW.csRead (s : SpiHW) : Nat := u32 (s.cs ||| s.ro)

/-- Plain-register bank update (stores the low 32 bits). -/
def upd (f : Nat → Nat) (i v : Nat) : Nat → Nat :=
  fun j => if j = i then u32 v else f j

structure RpioState where
  gpioMem : GpioBank
  clkMem : Nat → Nat
  pwmMem : Nat → Nat
  spiMem : SpiHW
  intrMem : Nat → Nat

/- ### Pin state machine -/

inductive GMode
  | Input
  | Output
  | Clock
  | Pwm
  | Spi
  | Alt0
  | Alt1
  | Alt2
  | Alt3
  | Alt4
  | Alt5
deriving DecidableEq

inductive PState
  | Low
  | High
deriving DecidableEq

/-- `WritePin`: bank set register `p/32 + 7` for High, bank clear
register `p/32 + 10` for Low, single bit at `p & 31`, under the lock. -/
def writePin (st : RpioState) (pin : Nat) (s : PState) : RpioState × List Ev :=
  let p := pin % 256
  let setReg := p / 32 + 7
  let clearReg := p / 32 + 10
  if s = .Low then
    ({ st with gpioMem := st.gpioMem.write clearReg (1 <<< (p &&& 31)) },
     [.lock, .wr .gpioBank clearReg (1 <<< (p &&& 31)), .unlock])
  else
    ({ st with gpioMem := st.gpioMem.write setReg (1 <<< (p &&& 31)) },
     [.lock, .wr .gpioBank setReg (1 <<< (p &&& 31)), .unlock])

/-- `ReadPin`: tests bit `pin & 31` of level register `pin/32 + 13`. -/
def readPin (st : RpioState) (pin : Nat) : PState :=
  let levelReg := pin % 256 / 32 + 13
  if st.gpioMem.read levelReg &&& (1 <<< (pin % 256 &&& 31)) ≠ 0 then .High
  else .Low

/-- `EdgeDetected`: reads the event-detect status bit of the pin from
register `p/32 + 16`, writes the same bit back (write-1-to-clear) and
returns whether it was set.  No lock is taken. -/
def edgeDetected (st : RpioState) (pin : Nat) : Bool × RpioState × List Ev :=
  let p := pin % 256
  let edsReg := p / 32 + 16
  let test := st.gpioMem.read edsReg &&& (1 <<< (p &&& 31))
  (test ≠ 0,
   { st with gpioMem := st.gpioMem.write edsReg test },
   [.rd .gpioBank edsReg, .wr .gpioBank edsReg test])

/-- `PinMode`: function-select register `pin/10`, 3-bit field at shift
`(pin % 10) * 3`.  Input/Output/Alt modes use the fixed 3-bit code
directly; Clock/Pwm/Spi map the pin through a fixed pin-to-alt table
and silently return (`none` code) for unsupported pins, before the lock
is taken and before any register access. -/
def pinMode (st : RpioState) (pin : Nat) (mode : GMode) :
    RpioState × List Ev :=
  let fselReg := pin % 256 / 10
  let shift := pin % 256 % 10 * 3
  let fOpt : Option Nat :=
    match mode with
    | .Input => some 0
    | .Output => some 1
    | .Clock =>
      if pin = 4 ∨ pin = 5 ∨ pin = 6 ∨ pin = 32 ∨ pin = 34 ∨ pin = 42 ∨
          pin = 43 ∨ pin = 44 then some 4
      else if pin = 20 ∨ pin = 21 then some 2
      else none
    | .Pwm =>
      if pin = 12 ∨ pin = 13 ∨ pin = 40 ∨ pin = 41 ∨ pin = 45 then some 4
      else if pin = 18 ∨ pin = 19 then some 2
      else none
    | .Spi =>
      if pin = 7 ∨ pin = 8 ∨ pin = 9 ∨ pin = 10 ∨ pin = 11 then some 4
      else if pin = 35 ∨ pin = 36 ∨ pin = 37 ∨ pin = 38 ∨ pin = 39 then
        some 4
      else if pin = 16 ∨ pin = 17 ∨ pin = 18 ∨ pin = 19 ∨ pin = 20 ∨
          pin = 21 then some 3
      else if pin = 40 ∨ pin = 41 ∨ pin = 42 ∨ pin = 43 ∨ pin = 44 ∨
          pin = 45 then some 3
      else none
    | .Alt0 => some 4
    | .Alt1 => some 5
    | .Alt2 => some 6
    | .Alt3 => some 7
    | .Alt4 => some 3
    | .Alt5 => some 2
  match fOpt with
  | none => (st, [])
  | some f =>
    let v := andNot32 (st.gpioMem.read fselReg) (7 <<< shift) |||
      (f <<< shift)
    ({ st with gpioMem := st.gpioMem.write fselReg v },
     [.lock, .rd .gpioBank fselReg, .wr .gpioBank fselReg v, .unlock])

/-- `ReadPinMode`: raw 3-bit function-select code of the pin. -/
def readPinMode (st : RpioState) (pin : Nat) : Nat :=
  st.gpioMem.read (pin % 256 / 10) >>> (pin % 256 % 10 * 3) &&& 7

/-- The fixed 3-bit code table of the eight direct modes
(Input=0, Output=1, Alt0=4, Alt1=5, Alt2=6, Alt3=7, Alt4=3, Alt5=2);
the value given to the pin-dependent Clock/Pwm/Spi modes is unused. -/
def modeCode : GMode → Nat
  | .Input => 0
  | .Output => 1
  | .Alt0 => 4
  | .Alt1 => 5
  | .Alt2 => 6
  | .Alt3 => 7
  | .Alt4 => 3
  | .Alt5 => 2
  | .Clock => 0
  | .Pwm => 0
  | .Spi => 0

inductive GPull
  | PullOff
  | PullDown
  | PullUp
  | PullNone
deriving DecidableEq

/-- The numeric value of the Go `Pull` constants
(`PullOff=0, PullDown=1, PullUp=2, PullNone=3`), as used by the legacy
path's `gpioMem[pullReg] |= uint32(pull)`. -/
def pullVal : GPull → Nat
  | .PullOff => 0
  | .PullDown => 1
  | .PullUp => 2
  | .PullNone => 3

/-- The 2-bit code of the BCM2711 path (`PullOff=0, PullUp=1,
PullDown=2`; the `var p uint32` zero default covers `PullNone`). -/
def pull2711 : GPull → Nat
  | .PullOff => 0
  | .PullUp => 1
  | .PullDown => 2
  | .PullNone => 0

/-- `isBCM2711`: GPIO register 60 (`GPPUPPDN3`) does not read back the
sentinel `0x6770696f`. -/
def isBCM2711 (st : RpioState) : Bool :=
  st.gpioMem.read 60 != 0x6770696f

/-- `PullMode`, under the lock.  BCM2711: read-modify-write of the 2-bit
field of register `57 + pin/16` at shift `(pin & 0xf) << 1`.  Legacy:
OR the pull value into bits 0-1 of register 37 (clear them for
`PullOff`), pulse bit `pin % 32` of the per-bank clock register
`pin/32 + 38`, then clear the control bits and the clock register. -/
def pullMode (st : RpioState) (pin : Nat) (pull : GPull) :
    RpioState × List Ev :=
  if isBCM2711 st then
    let pullreg := 57 + (pin >>> 4)
    let pullshift := (pin &&& 15) <<< 1
    let p := pull2711 pull
    let pullbits := st.gpioMem.read pullreg
    let pullbits := andNot32 pullbits (3 <<< pullshift)
    let pullbits := pullbits ||| (p <<< pullshift)
    ({ st with gpioMem := st.gpioMem.write pullreg pullbits },
     [.lock, .rd .gpioBank 60, .rd .gpioBank pullreg,
      .wr .gpioBank pullreg pullbits, .unlock])
  else
    let pullClkReg := pin / 32 + 38
    let shift := pin % 32
    let step1 : RpioState × List Ev :=
      match pull with
      | .PullDown =>
        let v := st.gpioMem.read 37 ||| pullVal .PullDown
        ({ st with gpioMem := st.gpioMem.write 37 v },
         [.rd .gpioBank 37, .wr .gpioBank 37 v])
      | .PullUp =>
        let v := st.gpioMem.read 37 ||| pullVal .PullUp
        ({ st with gpioMem := st.gpioMem.write 37 v },
         [.rd .gpioBank 37, .wr .gpioBank 37 v])
      | .PullOff =>
        let v := andNot32 (st.gpioMem.read 37) 3
        ({ st with gpioMem := st.gpioMem.write 37 v },
         [.rd .gpioBank 37, .wr .gpioBank 37 v])
      | .PullNone => (st, [])
    let st1 := step1.1
    let st2 := { st1 with
      gpioMem := st1.gpioMem.write pullClkReg (1 <<< shift) }
    let v3 := andNot32 (st2.gpioMem.read 37) 3
    let st3 := { st2 with gpioMem := st2.gpioMem.write 37 v3 }
    let st4 := { st3 with gpioMem := st3.gpioMem.write pullClkReg 0 }
    (st4,
     [Ev.lock, Ev.rd .gpioBank 60] ++ step1.2 ++
     [Ev.sleep 1, Ev.wr .gpioBank pullClkReg (1 <<< shift), Ev.sleep 1,
      Ev.rd .gpioBank 37, Ev.wr .gpioBank 37 v3,
      Ev.wr .gpioBank pullClkReg 0, Ev.unlock])

/- ### Clock / PWM programmer -/

/-- `StopPwm`: clears the two per-channel enable bits
(`pwen<<8 | pwen = 257`) of PWM control register 0, with no lock. -/
def stopPwm (st : RpioState) : RpioState × List Ev :=
  let v := andNot32 (st.pwmMem 0) 257
  ({ st with pwmMem := upd st.pwmMem 0 v },
   [.rd .pwmBank 0, .wr .pwmBank 0 v])

/-- `StartPwm`: sets the two per-channel enable bits, with no lock. -/
def startPwm (st : RpioState) : RpioState × List Ev :=
  let v := st.pwmMem 0 ||| 257
  ({ st with pwmMem := upd st.pwmMem 0 v },
   [.rd .pwmBank 0, .wr .pwmBank 0 v])

/-- The clock control/divider register pair of a pin's clock group
(clk0 / clk1 / clk2 / pwm_clk) and whether the group is the shared PWM
clock; `none` for pins in no group. -/
def pinClkRegs (pin : Nat) : Option (Nat × Nat × Bool) :=
  if pin = 4 ∨ pin = 20 ∨ pin = 32 ∨ pin = 34 then some (28, 29, false)
  else if pin = 5 ∨ pin = 21 ∨ pin = 42 ∨ pin = 44 then some (30, 31, false)
  else if pin = 6 ∨ pin = 43 then some (32, 33, false)
  else if pin = 12 ∨ pin = 13 ∨ pin = 40 ∨ pin = 41 ∨ pin = 45 ∨
      pin = 18 ∨ pin = 19 then some (40, 41, true)
  else none

/-- `SetFreq`.  Go divides `19200000` by `freq` before the pin switch, so
`freq = 0` panics (modelled `none`); the busy-wait after the stop write
spins forever in this state model if the busy bit (128) reads as set
(also `none`).  For the PWM clock group, `StopPwm` runs before the lock
is taken and the deferred `StartPwm` after it is released. -/
def setFreq (st : RpioState) (pin freq : Nat) :
    Option (RpioState × List Ev) :=
  if freq = 0 then none
  else
    let divi := (19200000 / freq) &&& 4095
    let divf := (((19200000 % freq) <<< 12) / freq) &&& 4095
    match pinClkRegs pin with
    | none => some (st, [])
    | some (ctl, dv, isPwmClk) =>
      let s1 := cond isPwmClk (stopPwm st) (st, [])
      let st1 := s1.1
      let mash := if divi < 2 ∨ divf = 0 then 0 else 512
      let stopv := 0x5A000000 ||| andNot32 (st1.clkMem ctl) 16
      let st2 := { st1 with clkMem := upd st1.clkMem ctl stopv }
      if st2.clkMem ctl &&& 128 ≠ 0 then none
      else
        let ctlv := 0x5A000000 ||| mash ||| 1
        let st3 := { st2 with clkMem := upd st2.clkMem ctl ctlv }
        let divv := 0x5A000000 ||| (divi <<< 12) ||| divf
        let st4 := { st3 with clkMem := upd st3.clkMem dv divv }
        let finv := 0x5A000000 ||| mash ||| 1 ||| 16
        let st5 := { st4 with clkMem := upd st4.clkMem ctl finv }
        let s2 := cond isPwmClk (startPwm st5) (st5, [])
        some (s2.1,
          s1.2 ++
          [Ev.lock, Ev.rd .clkBank ctl, Ev.wr .clkBank ctl stopv,
           Ev.rd .clkBank ctl, Ev.wr .clkBank ctl ctlv,
           Ev.wr .clkBank dv divv, Ev.sleep 10, Ev.wr .clkBank ctl finv,
           Ev.unlock] ++ s2.2)

/-- `SetDutyCycle`: resolves the pin to PWM channel 0 (range register 4,
data register 5, control shift 0) or channel 1 (8, 9, shift 8);
unsupported pins return before any register access.  Resets the 8-bit
per-channel control field to `msen | pwen`, writes data then range.
No lock is taken. -/
def setDutyCycle (st : RpioState) (pin dutyLen cycleLen : Nat) :
    RpioState × List Ev :=
  let conf : Option (Nat × Nat × Nat) :=
    if pin = 12 ∨ pin = 18 ∨ pin = 40 then some (4, 5, 0)
    else if pin = 13 ∨ pin = 19 ∨ pin = 41 ∨ pin = 45 then some (8, 9, 8)
    else none
  match conf with
  | none => (st, [])
  | some (rng, dat, shift) =>
    let v := andNot32 (st.pwmMem 0) (255 <<< shift) ||| (128 <<< shift) |||
      (1 <<< shift)
    let st1 := { st with pwmMem := upd st.pwmMem 0 v }
    let st2 := { st1 with pwmMem := upd st1.pwmMem dat dutyLen }
    let st3 := { st2 with pwmMem := upd st2.pwmMem rng cycleLen }
    (st3,
     [.rd .pwmBank 0, .wr .pwmBank 0 v, .wr .pwmBank dat dutyLen,
      .wr .pwmBank rng cycleLen, .sleep 10])

/- ### SPI master engine -/

def getSpiPins (dev : Nat) : List Nat :=
  if dev = 0 then [7, 8, 9, 10, 11]
  else if dev = 1 then [16, 17, 18, 19, 20, 21]
  else if dev = 2 then [40, 41, 42, 43, 44, 45]
  else []

/-- `clearSpiTxRxFifo`: sets the two FIFO-clear bits (48) in the
control/status register. -/
def clearSpiTxRxFifo (st : RpioState) : RpioState × List Ev :=
  let v := st.spiMem.csRead ||| 48
  ({ st with spiMem := { st.spiMem with cs := u32 v } },
   [.rd .spiBank 0, .wr .spiBank 0 v])

/-- `setSpiDiv`: divider masked to an even 16-bit value. -/
def setSpiDiv (st : RpioState) (dv : Nat) : RpioState × List Ev :=
  let v := dv &&& 65534
  ({ st with spiMem := { st.spiMem with div := u32 v } },
   [.wr .spiBank 2 v])

/-- `SpiBegin`: resets the control/status register to zero, re-reads it,
and returns the map error (flag `true`) if the read-back is zero —
before touching any pin mode, the FIFOs or the divider.  Otherwise sets
every pin of the device's group to Spi mode, clears both FIFOs and sets
the divider to 128. -/
def spiBegin (st : RpioState) (dev : Nat) : RpioState × List Ev × Bool :=
  let st1 := { st with spiMem := { st.spiMem with cs := 0 } }
  if st1.spiMem.csRead = 0 then
    (st1, [.wr .spiBank 0 0, .rd .spiBank 0], true)
  else
    let s2 := (getSpiPins dev).foldl
      (fun acc p =>
        let r := pinMode acc.1 p .Spi
        (r.1, acc.2 ++ r.2))
      (st1, ([] : List Ev))
    let s3 := clearSpiTxRxFifo s2.1
    let s4 := setSpiDiv s3.1 128
    (s4.1, [Ev.wr .spiBank 0 0, Ev.rd .spiBank 0] ++ s2.2 ++ s3.2 ++ s4.2,
     false)

/-- The per-byte body of `SpiExchange`: poll TXD (bit 18), write the
byte to the FIFO, poll RXD (bit 17), read a byte from the FIFO into the
same position.  A poll whose bit never reads as set spins forever
(`none`). -/
def spiXferLoop (st : RpioState) (data : List Nat) :
    Option (RpioState × List Nat × List Ev) :=
  match data with
  | [] => some (st, [], [])
  | d :: rest =>
    if st.spiMem.csRead &&& (1 <<< 18) = 0 then none
    else
      let st1 := { st with spiMem :=
        { st.spiMem with tx := st.spiMem.tx ++ [u32 d] } }
      if st1.spiMem.csRead &&& (1 <<< 17) = 0 then none
      else
        let b := u32 (st1.spiMem.rx st1.spiMem.rxCount) % 256
        let st2 := { st1 with spiMem :=
          { st1.spiMem with rxCount := st1.spiMem.rxCount + 1 } }
        match spiXferLoop st2 rest with
        | none => none
        | some (st3, out, tr) =>
          some (st3, b :: out,
            [Ev.rd .spiBank 0, Ev.wr .spiBank 1 (u32 d),
             Ev.rd .spiBank 0, Ev.rd .spiBank 1] ++ tr)

/-- `SpiExchange`: clear the FIFOs, set Transfer-Active (bit 128),
run the per-byte loop, poll Done (bit 16), clear Transfer-Active. -/
def spiExchange (st : RpioState) (data : List Nat) :
    Option (RpioState × List Nat × List Ev) :=
  let s1 := clearSpiTxRxFifo st
  let st1 := s1.1
  let tav := st1.spiMem.csRead ||| 128
  let st2 := { st1 with spiMem := { st1.spiMem with cs := u32 tav } }
  match spiXferLoop st2 data with
  | none => none
  | some (st3, out, trC) =>
    if st3.spiMem.csRead &&& (1 <<< 16) = 0 then none
    else
      let endv := andNot32 st3.spiMem.csRead 128
      let st4 := { st3 with spiMem := { st3.spiMem with cs := u32 endv } }
      some (st4, out,
        s1.2 ++ [Ev.rd .spiBank 0, Ev.wr .spiBank 0 tav] ++ trC ++
        [Ev.rd .spiBank 0, Ev.rd .spiBank 0, Ev.wr .spiBank 0 endv])

/-- The FIFO traffic `SpiExchange` is expected to produce: for each byte,
one TXD poll, the FIFO write of that byte, one RXD poll and the FIFO
read, in buffer order. -/
def xferTrace (data : List Nat) : List Ev :=
  (data.map (fun d =>
    [Ev.rd .spiBank 0, Ev.wr .spiBank 1 (u32 d), Ev.rd .spiBank 0,
     Ev.rd .spiBank 1])).flatten

/- ### Lock discipline -/

/-- `guardedFrom d tr`: scanning `tr` with `d` locks currently held,
every register read or write happens while at least one lock is held. -/
def guardedFrom : Nat → List Ev → Bool
  | _, [] => true
  | d, .lock :: r => guardedFrom (d + 1) r
  | d, .unlock :: r => guardedFrom (d - 1) r
  | d, .rd _ _ :: r => decide (0 < d) && guardedFrom d r
  | d, .wr _ _ _ :: r => decide (0 < d) && guardedFrom d r
  | d, .sleep _ :: r => guardedFrom d r

/-- Every register access of the trace happens under the lock. -/
def guarded (tr : List Ev) : Bool := guardedFrom 0 tr

/-- The event-detect latch bit of a pin: bit `pin % 32` of event-detect
status register `pin/32 + 16`. -/
def edsBit (st : RpioState) (pin : Nat) : Bool :=
  (st.gpioMem.read (pin / 32 + 16)).testBit (pin % 32)

/-- The `k`-th 3-bit field of GPIO register `r` (for a function-select
register, the mode code of pin `10*r + k`). -/
def fselField (st : RpioState) (r k : Nat) : Nat :=
  st.gpioMem.read r >>> (3 * k) &&& 7

/-- A concrete all-zero state, used by witnesses and counterexamples. -/
def st0 : RpioState :=
  { gpioMem := { regs := fun _ => 0, lvl0 := 0, lvl1 := 0, eds0 := 0,
                 eds1 := 0 },
    clkMem := fun _ => 0, pwmMem := fun _ => 0,
    spiMem := { ro := 0, cs := 0, div := 0, rx := fun _ => 0,
                rxCount := 0, tx := [] },
    intrMem := fun _ => 0 }

/-- A concrete legacy-board state: GPIO register 60 reads back the
non-BCM2711 sentinel. -/
def stLeg : RpioState :=
  { st0 with gpioMem := { st0.gpioMem with
      regs := fun i => if i = 60 then 0x6770696f else 0 } }

/-- A concrete mapped-SPI state: the read-only status presents the
Done, RXD and TXD bits, and the device returns bytes 65, 66, ... on
FIFO reads. -/
def stSpi : RpioState :=
  { st0 with spiMem := { st0.spiMem with
      ro := 1 <<< 18 ||| 1 <<< 17 ||| 1 <<< 16,
      rx := fun i => 65 + i } }

/- ### Theorems -/

/-- C2: `getBase` resolves the peripheral base exactly as the spec's
fallback chain describes: a readable non-zero big-endian word at byte
offset 4 wins, else a readable non-zero word at offset 8, else the
legacy constant `0x20000000`; in particular a file with a zero word at
offset 4 and a non-zero word at offset 8 resolves to the offset-8
word, not the legacy constant. -/
theorem c2_getBase_resolution (file : List Nat) (w : Nat) :
    getBase file = getBaseSpec file ∧
    (wordAt file 4 = some 0 → wordAt file 8 = some w → w ≠ 0 →
      getBase file = w) := by
  have hrb : ∀ off, readBase file off =
      match wordAt file off with
      | none => none
      | some v => if v = 0 then none else some v := by
    intro off
    unfold readBase wordAt
    split
    · rfl
    · rfl
  constructor
  · unfold getBase getBaseSpec
    rw [hrb, hrb]
    rcases wordAt file 4 with _ | v
    · rcases wordAt file 8 with _ | w'
      · rfl
      · by_cases hz : w' = 0 <;> simp [hz]
    · by_cases hz : v = 0
      · rcases wordAt file 8 with _ | w'
        · simp [hz]
        · by_cases hz8 : w' = 0 <;> simp [hz, hz8]
      · simp [hz]
  · intro h4 h8 hw
    unfold getBase
    rw [hrb, hrb, h4, h8]
    simp [hw]

/-- C2 witness: a 12-byte translation file with a zero word at offset 4
and the word 1 at offset 8 resolves to 1. -/
theorem c2_getBase_resolution_witness :
    getBase [0, 0, 0, 0, 0, 0, 0, 0, 0, 0, 0, 1] = 1 :=
  (c2_getBase_resolution [0, 0, 0, 0, 0, 0, 0, 0, 0, 0, 0, 1] 1).2
    (by decide) (by decide) (by decide)

theorem testBit_u32 (x i : Nat) :
    (u32 x).testBit i = (decide (i < 32) && x.testBit i) := by
  unfold u32
  exact Nat.testBit_mod_two_pow x 32 i

theorem testBit_andNot32 (a b i : Nat) :
    (andNot32 a b).testBit i =
      (a.testBit i && (decide (i < 32) && !b.testBit i)) := by
  unfold andNot32
  rw [Nat.testBit_and, Nat.testBit_xor, Nat.testBit_two_pow_sub_one,
    testBit_u32]
  by_cases h : i < 32 <;> simp [h]

theorem land_two_pow_eq_zero_iff (x k : Nat) :
    x &&& 2 ^ k = 0 ↔ x.testBit k = false := by
  constructor
  · intro h
    have h2 := congrArg (fun t => Nat.testBit t k) h
    simpa [Nat.testBit_and, Nat.testBit_two_pow_self] using h2
  · intro h
    apply Nat.eq_of_testBit_eq
    intro j
    by_cases hj : j = k
    · subst hj
      simp [Nat.testBit_and, h]
    · simp [Nat.testBit_and,
        Nat.testBit_two_pow_of_ne (fun hh => hj hh.symm)]

theorem one_shiftLeft_eq (k : Nat) : 1 <<< k = 2 ^ k := by
  simp [Nat.shiftLeft_eq]

theorem land_one_shiftLeft_ne_zero_iff (x k : Nat) :
    x &&& (1 <<< k) ≠ 0 ↔ x.testBit k = true := by
  rw [one_shiftLeft_eq]
  constructor
  · intro h
    rcases Bool.eq_false_or_eq_true (x.testBit k) with ht | hf
    · exact ht
    · exact absurd ((land_two_pow_eq_zero_iff x k).2 hf) h
  · intro h hz
    rw [(land_two_pow_eq_zero_iff x k).1 hz] at h
    exact Bool.false_ne_true h

theorem readPin_eq_high_iff (st : RpioState) (pin : Nat) :
    readPin st pin = .High ↔
      st.gpioMem.read (pin % 256 / 32 + 13) &&&
        (1 <<< (pin % 256 &&& 31)) ≠ 0 := by
  simp only [readPin]
  split <;> simp_all

theorem readPin_eq_low_iff (st : RpioState) (pin : Nat) :
    readPin st pin = .Low ↔
      st.gpioMem.read (pin % 256 / 32 + 13) &&&
        (1 <<< (pin % 256 &&& 31)) = 0 := by
  simp only [readPin]
  split <;> simp_all

/-- C1: for every pin `p < 58`, `WritePin p High` followed by `ReadPin p`
yields High, and `WritePin p Low` followed by `ReadPin p` yields Low:
the bit set through the write-1-to-set register `p/32 + 7` (resp.
cleared through the write-1-to-clear register `p/32 + 10`) at position
`p % 32` is the bit `ReadPin` tests in level register `p/32 + 13`. -/
theorem c1_write_read_roundtrip (st : RpioState) (p : Nat) (h : p < 58) :
    readPin (writePin st p .High).1 p = .High ∧
    readPin (writePin st p .Low).1 p = .Low := by
  have hp : p % 256 = p := Nat.mod_eq_of_lt (by omega)
  have hk : p &&& 31 = p % 32 := by
    simpa using Nat.and_pow_two_sub_one_eq_mod p 5
  have hklt : p % 32 < 32 := Nat.mod_lt _ (by omega)
  have hbank : p / 32 = 0 ∨ p / 32 = 1 := by omega
  have hw_high : (writePin st p .High).1 =
      { st with gpioMem :=
          st.gpioMem.write (p % 256 / 32 + 7) (1 <<< (p % 256 &&& 31)) } :=
    rfl
  have hw_low : (writePin st p .Low).1 =
      { st with gpioMem :=
          st.gpioMem.write (p % 256 / 32 + 10) (1 <<< (p % 256 &&& 31)) } :=
    rfl
  constructor
  · rw [readPin_eq_high_iff, hw_high]
    rcases hbank with hb | hb <;>
    · simp only [hp, hk, hb]
      norm_num [GpioBank.write, GpioBank.read]
      refine (land_one_shiftLeft_ne_zero_iff _ _).mpr ?_
      simp [testBit_u32, hklt, one_shiftLeft_eq, Nat.testBit_two_pow_self]
  · rw [readPin_eq_low_iff, hw_low]
    rcases hbank with hb | hb <;>
    · simp only [hp, hk, hb]
      norm_num [GpioBank.write, GpioBank.read]
      rw [one_shiftLeft_eq, land_two_pow_eq_zero_iff]
      simp [testBit_andNot32, testBit_u32, hklt, one_shiftLeft_eq,
        Nat.testBit_two_pow_self]

/-- C1 witness at pin 57 on a concrete state. -/
theorem c1_write_read_roundtrip_witness :
    readPin
      (writePin
        { gpioMem := { regs := fun _ => 0, lvl0 := 0, lvl1 := 0,
                       eds0 := 0, eds1 := 0 },
          clkMem := fun _ => 0, pwmMem := fun _ => 0,
          spiMem := { ro := 0, cs := 0, div := 0, rx := fun _ => 0,
                      rxCount := 0, tx := [] },
          intrMem := fun _ => 0 } 57 .High).1 57 = .High :=
  (c1_write_read_roundtrip _ 57 (by decide)).1

theorem testBit_seven (j : Nat) : Nat.testBit 7 j = decide (j < 3) := by
  have h := Nat.testBit_two_pow_sub_one 3 j
  norm_num at h
  exact h

theorem andNot32_lt_two_pow (a b : Nat) : andNot32 a b < 2 ^ 32 := by
  unfold andNot32
  refine lt_of_le_of_lt Nat.and_le_right ?_
  exact Nat.xor_lt_two_pow (by norm_num)
    (by unfold u32; exact Nat.mod_lt _ (by norm_num))

theorem GpioBank.write_plain (g : GpioBank) (r v : Nat)
    (h1 : r ≠ 7) (h2 : r ≠ 8) (h3 : r ≠ 10) (h4 : r ≠ 11)
    (h5 : r ≠ 16) (h6 : r ≠ 17) :
    g.write r v =
      { g with regs := fun i => if i = r then u32 v else g.regs i } := by
  simp [GpioBank.write, h1, h2, h3, h4, h5, h6]

theorem GpioBank.read_plain (g : GpioBank) (r : Nat)
    (h1 : r ≠ 13) (h2 : r ≠ 14) (h3 : r ≠ 16) (h4 : r ≠ 17) :
    g.read r = g.regs r := by
  simp [GpioBank.read, h1, h2, h3, h4]

/-- Setting a 3-bit field: the field written reads back as the code. -/
theorem fsel_set_field (g f s : Nat) (hf : f < 8) :
    (andNot32 g (7 <<< s) ||| f <<< s) >>> s &&& 7 = f := by
  apply Nat.eq_of_testBit_eq
  intro i
  rw [Nat.testBit_and, Nat.testBit_shiftRight, Nat.testBit_or,
    testBit_andNot32, Nat.testBit_shiftLeft, Nat.testBit_shiftLeft,
    testBit_seven, testBit_seven]
  have hsub : s + i - s = i := by omega
  have hge : s + i ≥ s := by omega
  rw [hsub]
  by_cases hi : i < 3
  · simp [hi, hge]
  · have hfb : f.testBit i = false :=
      Nat.testBit_lt_two_pow (lt_of_lt_of_le hf (by
        calc (8 : Nat) = 2 ^ 3 := by norm_num
        _ ≤ 2 ^ i := Nat.pow_le_pow_right (by norm_num) (by omega)))
    simp [hi, hfb]

/-- Setting a 3-bit field leaves every disjoint 3-bit field unchanged. -/
theorem fsel_frame_field (g f s t : Nat) (hf : f < 8) (hg : g < 2 ^ 32)
    (hd : t + 3 ≤ s ∨ s + 3 ≤ t) :
    (andNot32 g (7 <<< s) ||| f <<< s) >>> t &&& 7 = g >>> t &&& 7 := by
  apply Nat.eq_of_testBit_eq
  intro i
  rw [Nat.testBit_and, Nat.testBit_and, Nat.testBit_shiftRight,
    Nat.testBit_shiftRight, Nat.testBit_or, testBit_andNot32,
    Nat.testBit_shiftLeft, Nat.testBit_shiftLeft, testBit_seven,
    testBit_seven]
  by_cases hi : i < 3
  · have hmask : (decide (t + i ≥ s) && decide (t + i - s < 3)) = false := by
      rcases hd with hd | hd
      · have : ¬(t + i ≥ s) := by omega
        simp [this]
      · have h1 : t + i ≥ s := by omega
        have h2 : ¬(t + i - s < 3) := by omega
        simp [h1, h2]
    have hfb : (decide (t + i ≥ s) && f.testBit (t + i - s)) = false := by
      rcases hd with hd | hd
      · have : ¬(t + i ≥ s) := by omega
        simp [this]
      · have h1 : t + i ≥ s := by omega
        have h2 : f.testBit (t + i - s) = false :=
          Nat.testBit_lt_two_pow (lt_of_lt_of_le hf (by
            calc (8 : Nat) = 2 ^ 3 := by norm_num
            _ ≤ 2 ^ (t + i - s) := Nat.pow_le_pow_right (by norm_num)
              (by omega)))
        simp [h1, h2]
    rw [hmask, hfb]
    by_cases h32 : t + i < 32
    · simp [h32, hi]
    · have hgb : g.testBit (t + i) = false :=
        Nat.testBit_lt_two_pow (lt_of_lt_of_le hg
          (Nat.pow_le_pow_right (by norm_num) (by omega)))
      simp [h32, hi, hgb]
  · simp [hi]

/-- `pinMode` on one of the eight direct modes always performs the
read-modify-write with the mode's fixed 3-bit code. -/
theorem pinMode_direct (st : RpioState) (pin : Nat) (m : GMode)
    (hm : m = .Input ∨ m = .Output ∨ m = .Alt0 ∨ m = .Alt1 ∨ m = .Alt2 ∨
      m = .Alt3 ∨ m = .Alt4 ∨ m = .Alt5) :
    pinMode st pin m =
      ({ st with gpioMem := (st.gpioMem.write (pin % 256 / 10)
          (andNot32 (st.gpioMem.read (pin % 256 / 10))
            (7 <<< (pin % 256 % 10 * 3)) |||
           (modeCode m <<< (pin % 256 % 10 * 3)))) },
       [.lock, .rd .gpioBank (pin % 256 / 10),
        .wr .gpioBank (pin % 256 / 10)
          (andNot32 (st.gpioMem.read (pin % 256 / 10))
            (7 <<< (pin % 256 % 10 * 3)) |||
           (modeCode m <<< (pin % 256 % 10 * 3))),
        .unlock]) := by
  rcases hm with h | h | h | h | h | h | h | h <;> subst h <;> rfl

/-- C3: for every pin below 58 and every direct mode (Input, Output,
Alt0-Alt5), `ReadPinMode` after `PinMode` returns the mode's fixed
3-bit code (Input=0, Output=1, Alt0=4, Alt1=5, Alt2=6, Alt3=7, Alt4=3,
Alt5=2): both address the 3-bit field at shift `(pin % 10) * 3` of
function-select register `pin / 10`, and the read-modify-write leaves
every other 3-bit field of every GPIO register unchanged. -/
theorem c3_pinmode_readback (st : RpioState) (pin : Nat) (m : GMode)
    (r k : Nat) (hpin : pin < 58)
    (hm : m = .Input ∨ m = .Output ∨ m = .Alt0 ∨ m = .Alt1 ∨ m = .Alt2 ∨
      m = .Alt3 ∨ m = .Alt4 ∨ m = .Alt5)
    (hg : st.gpioMem.regs (pin / 10) < 2 ^ 32)
    (hk : k < 10) (hne : ¬(r = pin / 10 ∧ k = pin % 10)) :
    readPinMode (pinMode st pin m).1 pin = modeCode m ∧
    fselField (pinMode st pin m).1 r k = fselField st r k := by
  have hp256 : pin % 256 = pin := Nat.mod_eq_of_lt (by omega)
  have hf5 : pin / 10 ≤ 5 := by omega
  have hcode : modeCode m < 8 := by
    rcases hm with h | h | h | h | h | h | h | h <;> subst h <;> decide
  rw [pinMode_direct st pin m hm]
  rw [hp256]
  set g := st.gpioMem.read (pin / 10) with hgdef
  set v := andNot32 g (7 <<< (pin % 10 * 3)) |||
    (modeCode m <<< (pin % 10 * 3)) with hvdef
  have hvlt : v < 2 ^ 32 := by
    rw [hvdef]
    refine Nat.or_lt_two_pow (andNot32_lt_two_pow _ _) ?_
    rw [Nat.shiftLeft_eq]
    calc modeCode m * 2 ^ (pin % 10 * 3) ≤ 7 * 2 ^ 27 :=
          Nat.mul_le_mul (by omega)
            (Nat.pow_le_pow_right (by norm_num) (by omega))
    _ < 2 ^ 32 := by norm_num
  have hu32v : u32 v = v := Nat.mod_eq_of_lt hvlt
  have hwr := GpioBank.write_plain st.gpioMem (pin / 10) v
    (by omega) (by omega) (by omega) (by omega) (by omega) (by omega)
  have hgregs : g = st.gpioMem.regs (pin / 10) := by
    rw [hgdef]
    exact GpioBank.read_plain st.gpioMem (pin / 10)
      (by omega) (by omega) (by omega) (by omega)
  constructor
  · unfold readPinMode
    rw [hp256, hwr]
    rw [GpioBank.read_plain _ (pin / 10)
      (by omega) (by omega) (by omega) (by omega)]
    show (if pin / 10 = pin / 10 then u32 v else st.gpioMem.regs (pin / 10))
        >>> (pin % 10 * 3) &&& 7 = modeCode m
    rw [if_pos rfl, hu32v, hvdef]
    exact fsel_set_field g (modeCode m) (pin % 10 * 3) hcode
  · unfold fselField
    rw [hwr]
    by_cases hr : r = pin / 10
    · subst hr
      rw [GpioBank.read_plain _ (pin / 10)
        (by omega) (by omega) (by omega) (by omega)]
      rw [GpioBank.read_plain st.gpioMem (pin / 10)
        (by omega) (by omega) (by omega) (by omega)]
      show (if pin / 10 = pin / 10 then u32 v
          else st.gpioMem.regs (pin / 10)) >>> (3 * k) &&& 7 =
        st.gpioMem.regs (pin / 10) >>> (3 * k) &&& 7
      rw [if_pos rfl, hu32v, hvdef, ← hgregs]
      exact fsel_frame_field g (modeCode m) (pin % 10 * 3) (3 * k) hcode
        (hgregs ▸ hg) (by omega)
    · by_cases hsp : r = 13 ∨ r = 14 ∨ r = 16 ∨ r = 17
      · rcases hsp with h | h | h | h <;> subst h <;>
          simp [GpioBank.read]
      · push_neg at hsp
        obtain ⟨h13, h14, h16, h17⟩ := hsp
        rw [GpioBank.read_plain _ r h13 h14 h16 h17,
          GpioBank.read_plain st.gpioMem r h13 h14 h16 h17]
        show (if r = pin / 10 then u32 v else st.gpioMem.regs r)
            >>> (3 * k) &&& 7 = st.gpioMem.regs r >>> (3 * k) &&& 7
        rw [if_neg hr]

/-- C3 witness: pin 57 set to Alt3 reads back code 7, and field 0 of
register 0 is unchanged. -/
theorem c3_pinmode_readback_witness :
    readPinMode (pinMode st0 57 .Alt3).1 57 = modeCode .Alt3 ∧
    fselField (pinMode st0 57 .Alt3).1 0 0 = fselField st0 0 0 :=
  c3_pinmode_readback st0 57 .Alt3 0 0 (by decide)
    (by simp) (by decide) (by decide) (by decide)

theorem land_one_shiftLeft_eq_zero_iff (x k : Nat) :
    x &&& 1 <<< k = 0 ↔ x.testBit k = false := by
  rw [one_shiftLeft_eq]
  exact land_two_pow_eq_zero_iff x k

/-- Writing back the tested bit clears exactly that latch bit. -/
theorem edge_clear_self (e k : Nat) (hk : k < 32) :
    (andNot32 e (u32 (e &&& 1 <<< k))).testBit k = false := by
  rw [testBit_andNot32, testBit_u32, one_shiftLeft_eq, Nat.testBit_and,
    Nat.testBit_two_pow_self]
  by_cases h : e.testBit k <;> simp [h, hk]

/-- Writing back the tested bit leaves every other latch bit unchanged. -/
theorem edge_clear_other (e k j : Nat) (hj : j < 32) (hne : j ≠ k) :
    (andNot32 e (u32 (e &&& 1 <<< k))).testBit j = e.testBit j := by
  rw [testBit_andNot32, testBit_u32, one_shiftLeft_eq, Nat.testBit_and,
    Nat.testBit_two_pow_of_ne (fun h => hne h.symm)]
  simp [hj]

/-- The re-test of the cleared latch bit reads zero. -/
theorem edge_retest_zero (e k : Nat) (hk : k < 32) :
    andNot32 e (u32 (e &&& 1 <<< k)) &&& 1 <<< k = 0 :=
  (land_one_shiftLeft_eq_zero_iff _ _).2 (edge_clear_self e k hk)

/-- C7: for a pin whose event-detect latch bit is set, two consecutive
`EdgeDetected` calls with no intervening transition return `true` then
`false`: each call reads the status bit from register `p/32 + 16`,
writes the same bit back (write-1-to-clear) and reports whether it was
set, leaving the latch bits of all other pins unchanged. -/
theorem c7_edge_detected_latch (st : RpioState) (p q : Nat)
    (hp : p < 58) (hq : q < 58) (hne : q ≠ p)
    (hset : edsBit st p = true) :
    (edgeDetected st p).1 = true ∧
    (edgeDetected (edgeDetected st p).2.1 p).1 = false ∧
    edsBit (edgeDetected (edgeDetected st p).2.1 p).2.1 q = edsBit st q := by
  have hp256 : p % 256 = p := Nat.mod_eq_of_lt (by omega)
  have hkp : p &&& 31 = p % 32 := by
    simpa using Nat.and_pow_two_sub_one_eq_mod p 5
  have hkplt : p % 32 < 32 := Nat.mod_lt _ (by norm_num)
  have hqlt : q % 32 < 32 := Nat.mod_lt _ (by norm_num)
  rcases (show p / 32 = 0 ∨ p / 32 = 1 from by omega) with hbp | hbp <;>
    rcases (show q / 32 = 0 ∨ q / 32 = 1 from by omega) with hbq | hbq
  · have hjk : q % 32 ≠ p % 32 := by omega
    unfold edsBit at hset ⊢
    rw [hbp] at hset
    rw [hbq]
    simp only [edgeDetected, hp256, hkp, hbp]
    norm_num [GpioBank.read, GpioBank.write] at hset ⊢
    refine ⟨?_, ?_, ?_⟩
    · exact (land_one_shiftLeft_ne_zero_iff _ _).2 hset
    · rw [edge_retest_zero _ _ hkplt]
    · rw [edge_clear_other _ _ _ hqlt hjk, edge_clear_other _ _ _ hqlt hjk]
  · unfold edsBit at hset ⊢
    rw [hbp] at hset
    rw [hbq]
    simp only [edgeDetected, hp256, hkp, hbp]
    norm_num [GpioBank.read, GpioBank.write] at hset ⊢
    refine ⟨?_, ?_⟩
    · exact (land_one_shiftLeft_ne_zero_iff _ _).2 hset
    · rw [edge_retest_zero _ _ hkplt]
  · unfold edsBit at hset ⊢
    rw [hbp] at hset
    rw [hbq]
    simp only [edgeDetected, hp256, hkp, hbp]
    norm_num [GpioBank.read, GpioBank.write] at hset ⊢
    refine ⟨?_, ?_⟩
    · exact (land_one_shiftLeft_ne_zero_iff _ _).2 hset
    · rw [edge_retest_zero _ _ hkplt]
  · have hjk : q % 32 ≠ p % 32 := by omega
    unfold edsBit at hset ⊢
    rw [hbp] at hset
    rw [hbq]
    simp only [edgeDetected, hp256, hkp, hbp]
    norm_num [GpioBank.read, GpioBank.write] at hset ⊢
    refine ⟨?_, ?_, ?_⟩
    · exact (land_one_shiftLeft_ne_zero_iff _ _).2 hset
    · rw [edge_retest_zero _ _ hkplt]
    · rw [edge_clear_other _ _ _ hqlt hjk, edge_clear_other _ _ _ hqlt hjk]

/-- C7 witness: a state with latch bit 5 set, pins 5 and 6. -/
theorem c7_edge_detected_latch_witness :
    (edgeDetected { st0 with gpioMem := { st0.gpioMem with eds0 := 32 } }
      5).1 = true ∧
    (edgeDetected (edgeDetected
      { st0 with gpioMem := { st0.gpioMem with eds0 := 32 } } 5).2.1 5).1 =
      false ∧
    edsBit (edgeDetected (edgeDetected
      { st0 with gpioMem := { st0.gpioMem with eds0 := 32 } } 5).2.1 5).2.1
      6 =
    edsBit { st0 with gpioMem := { st0.gpioMem with eds0 := 32 } } 6 :=
  c7_edge_detected_latch _ 5 6 (by decide) (by decide) (by decide)
    (by decide)

theorem testBit_three (j : Nat) : Nat.testBit 3 j = decide (j < 2) := by
  have h := Nat.testBit_two_pow_sub_one 2 j
  norm_num at h
  exact h

/-- Clearing the low two bits with AND-NOT leaves them zero. -/
theorem andNot32_and_three (x : Nat) : andNot32 x 3 &&& 3 = 0 := by
  apply Nat.eq_of_testBit_eq
  intro j
  rw [Nat.testBit_and, testBit_andNot32, testBit_three, Nat.zero_testBit]
  by_cases hj : j < 2 <;> simp [hj]

theorem u32_andNot32_three (x : Nat) : u32 (andNot32 x 3) &&& 3 = 0 := by
  have h : u32 (andNot32 x 3) = andNot32 x 3 :=
    Nat.mod_eq_of_lt (andNot32_lt_two_pow x 3)
  rw [h]
  exact andNot32_and_three x

/-- With bits 0-1 clear, OR-ing a 2-bit code equals the clear-then-set
read-modify-write. -/
theorem or_eq_clear_then_set (x c : Nat) (hx : x < 2 ^ 32)
    (hinv : x &&& 3 = 0) (hc : c < 4) :
    x ||| c = andNot32 x 3 ||| c := by
  have hlow : ∀ j, j < 2 → x.testBit j = false := by
    intro j hj
    have h := congrArg (fun t => Nat.testBit t j) hinv
    simpa [Nat.testBit_and, testBit_three, hj] using h
  apply Nat.eq_of_testBit_eq
  intro j
  rw [Nat.testBit_or, Nat.testBit_or, testBit_andNot32, testBit_three]
  by_cases hj : j < 2
  · rw [hlow j hj]
    simp
  · by_cases hj32 : j < 32
    · simp [hj, hj32]
    · have hxb : x.testBit j = false :=
        Nat.testBit_lt_two_pow (lt_of_lt_of_le hx
          (Nat.pow_le_pow_right (by norm_num) (by omega)))
      have hcb : c.testBit j = false :=
        Nat.testBit_lt_two_pow (lt_of_lt_of_le hc (by
          calc (4 : Nat) = 2 ^ 2 := by norm_num
          _ ≤ 2 ^ j := Nat.pow_le_pow_right (by norm_num) (by omega)))
      simp [hxb, hcb, hj32]

/-- With bits 0-1 clear, OR-ing a 2-bit code stores exactly that code
in the 2-bit field. -/
theorem or_low_bits (x c : Nat) (hinv : x &&& 3 = 0) (hc : c < 4) :
    (x ||| c) &&& 3 = c := by
  have hlow : ∀ j, j < 2 → x.testBit j = false := by
    intro j hj
    have h := congrArg (fun t => Nat.testBit t j) hinv
    simpa [Nat.testBit_and, testBit_three, hj] using h
  apply Nat.eq_of_testBit_eq
  intro j
  rw [Nat.testBit_and, Nat.testBit_or, testBit_three]
  by_cases hj : j < 2
  · rw [hlow j hj]
    simp [hj]
  · have hcb : c.testBit j = false :=
      Nat.testBit_lt_two_pow (lt_of_lt_of_le hc (by
        calc (4 : Nat) = 2 ^ 2 := by norm_num
        _ ≤ 2 ^ j := Nat.pow_le_pow_right (by norm_num) (by omega)))
    simp [hj, hcb]

/-- C10: on a non-BCM2711 board every `PullMode` call terminates with
bits 0-1 of GPIO register 37 cleared and the per-bank pull-clock
register `pin/32 + 38` set to 0; under that invariant, the
OR-assignment at the start of the next call (for PullDown=1 / PullUp=2)
stores exactly the requested code into the otherwise-clear control
field, so the OR is equivalent to a clear-then-set read-modify-write. -/
theorem c10_legacy_pull_invariant (st : RpioState) (pin : Nat)
    (pull : GPull) (hleg : st.gpioMem.read 60 = 0x6770696f)
    (hpin : pin < 58) (hlt : st.gpioMem.read 37 < 2 ^ 32) :
    ((pullMode st pin pull).1.gpioMem.read 37 &&& 3 = 0 ∧
     (pullMode st pin pull).1.gpioMem.read (pin / 32 + 38) = 0) ∧
    (st.gpioMem.read 37 &&& 3 = 0 →
      (pull = .PullDown ∨ pull = .PullUp) →
      Ev.wr .gpioBank 37
          (andNot32 (st.gpioMem.read 37) 3 ||| pullVal pull) ∈
        (pullMode st pin pull).2 ∧
      (st.gpioMem.read 37 ||| pullVal pull) &&& 3 = pullVal pull) := by
  have hb : isBCM2711 st = false := by
    simp [isBCM2711, hleg]
  have h32 : pin / 32 = 0 ∨ pin / 32 = 1 := by omega
  constructor
  · rcases h32 with h32 | h32 <;> cases pull <;>
    · simp only [pullMode, hb, Bool.false_eq_true, if_false, h32, pullVal]
      norm_num [GpioBank.read, GpioBank.write]
      exact ⟨u32_andNot32_three _, rfl⟩
  · intro hinv hpd
    have hvlt : pullVal pull < 4 := by cases pull <;> decide
    have heq : st.gpioMem.read 37 ||| pullVal pull =
        andNot32 (st.gpioMem.read 37) 3 ||| pullVal pull :=
      or_eq_clear_then_set _ _ hlt hinv hvlt
    refine ⟨?_, or_low_bits _ _ hinv hvlt⟩
    rw [← heq]
    rcases hpd with h | h <;> subst h <;>
    · simp only [pullMode, hb, Bool.false_eq_true, if_false]
      norm_num

/-- C10 witness at pin 2, PullUp, on a legacy-board state. -/
theorem c10_legacy_pull_invariant_witness :
    (((pullMode stLeg 2 .PullUp).1.gpioMem.read 37 &&& 3 = 0 ∧
      (pullMode stLeg 2 .PullUp).1.gpioMem.read (2 / 32 + 38) = 0) ∧
     (stLeg.gpioMem.read 37 &&& 3 = 0 →
       (GPull.PullUp = .PullDown ∨ GPull.PullUp = .PullUp) →
       Ev.wr .gpioBank 37
           (andNot32 (stLeg.gpioMem.read 37) 3 ||| pullVal .PullUp) ∈
         (pullMode stLeg 2 .PullUp).2 ∧
       (stLeg.gpioMem.read 37 ||| pullVal .PullUp) &&& 3 =
         pullVal .PullUp)) :=
  c10_legacy_pull_invariant stLeg 2 .PullUp (by decide) (by decide)
    (by decide)

/-- C4 counterexample: `SetFreq` divides the oscillator frequency by
`freq` before the pin switch, so at `freq = 0` the call panics
(diverges, `none`) even for pin 3, which is in no clock group — it is
not the silent no-op return the claim asserts for every call with an
unsupported pin. -/
theorem c4_counterexample_freq_zero :
    pinClkRegs 3 = none ∧ setFreq st0 3 0 = none :=
  ⟨rfl, rfl⟩

/-- C4 (amended): for every pin outside the hardware-supported set of a
special mode, `PinMode` (Clock/Pwm/Spi), `SetDutyCycle`, and — provided
`freq > 0` — `SetFreq` return with the state unchanged and an empty
event trace: no register of any window is touched and no error is
signalled (the operations have no error channel). -/
theorem c4_unsupported_pin_noop (st : RpioState) (pin f d c : Nat) :
    (¬(pin = 4 ∨ pin = 5 ∨ pin = 6 ∨ pin = 32 ∨ pin = 34 ∨ pin = 42 ∨
        pin = 43 ∨ pin = 44 ∨ pin = 20 ∨ pin = 21) →
      pinMode st pin .Clock = (st, [])) ∧
    (¬(pin = 12 ∨ pin = 13 ∨ pin = 40 ∨ pin = 41 ∨ pin = 45 ∨
        pin = 18 ∨ pin = 19) →
      pinMode st pin .Pwm = (st, [])) ∧
    (¬(pin = 7 ∨ pin = 8 ∨ pin = 9 ∨ pin = 10 ∨ pin = 11 ∨ pin = 35 ∨
        pin = 36 ∨ pin = 37 ∨ pin = 38 ∨ pin = 39 ∨ pin = 16 ∨
        pin = 17 ∨ pin = 18 ∨ pin = 19 ∨ pin = 20 ∨ pin = 21 ∨
        pin = 40 ∨ pin = 41 ∨ pin = 42 ∨ pin = 43 ∨ pin = 44 ∨
        pin = 45) →
      pinMode st pin .Spi = (st, [])) ∧
    (0 < f →
      ¬(pin = 4 ∨ pin = 20 ∨ pin = 32 ∨ pin = 34 ∨ pin = 5 ∨ pin = 21 ∨
        pin = 42 ∨ pin = 44 ∨ pin = 6 ∨ pin = 43 ∨ pin = 12 ∨
        pin = 13 ∨ pin = 40 ∨ pin = 41 ∨ pin = 45 ∨ pin = 18 ∨
        pin = 19) →
      setFreq st pin f = some (st, [])) ∧
    (¬(pin = 12 ∨ pin = 18 ∨ pin = 40 ∨ pin = 13 ∨ pin = 19 ∨
        pin = 41 ∨ pin = 45) →
      setDutyCycle st pin d c = (st, [])) := by
  refine ⟨?_, ?_, ?_, ?_, ?_⟩
  · intro h
    have h1 : ¬(pin = 4 ∨ pin = 5 ∨ pin = 6 ∨ pin = 32 ∨ pin = 34 ∨
        pin = 42 ∨ pin = 43 ∨ pin = 44) := by omega
    have h2 : ¬(pin = 20 ∨ pin = 21) := by omega
    simp [pinMode, h1, h2]
  · intro h
    have h1 : ¬(pin = 12 ∨ pin = 13 ∨ pin = 40 ∨ pin = 41 ∨
        pin = 45) := by omega
    have h2 : ¬(pin = 18 ∨ pin = 19) := by omega
    simp [pinMode, h1, h2]
  · intro h
    have h1 : ¬(pin = 7 ∨ pin = 8 ∨ pin = 9 ∨ pin = 10 ∨ pin = 11) := by
      omega
    have h2 : ¬(pin = 35 ∨ pin = 36 ∨ pin = 37 ∨ pin = 38 ∨
        pin = 39) := by omega
    have h3 : ¬(pin = 16 ∨ pin = 17 ∨ pin = 18 ∨ pin = 19 ∨ pin = 20 ∨
        pin = 21) := by omega
    have h4 : ¬(pin = 40 ∨ pin = 41 ∨ pin = 42 ∨ pin = 43 ∨ pin = 44 ∨
        pin = 45) := by omega
    simp [pinMode, h1, h2, h3, h4]
  · intro hf h
    have hf0 : ¬(f = 0) := by omega
    have h1 : ¬(pin = 4 ∨ pin = 20 ∨ pin = 32 ∨ pin = 34) := by omega
    have h2 : ¬(pin = 5 ∨ pin = 21 ∨ pin = 42 ∨ pin = 44) := by omega
    have h3 : ¬(pin = 6 ∨ pin = 43) := by omega
    have h4 : ¬(pin = 12 ∨ pin = 13 ∨ pin = 40 ∨ pin = 41 ∨ pin = 45 ∨
        pin = 18 ∨ pin = 19) := by omega
    simp [setFreq, pinClkRegs, hf0, h1, h2, h3, h4]
  · intro h
    have h1 : ¬(pin = 12 ∨ pin = 18 ∨ pin = 40) := by omega
    have h2 : ¬(pin = 13 ∨ pin = 19 ∨ pin = 41 ∨ pin = 45) := by omega
    simp [setDutyCycle, h1, h2]

/-- C4 witness: pin 3 is in no special-mode pin set; the three
`PinMode` calls, `SetFreq` with frequency 1, and `SetDutyCycle` are
exact no-ops on a concrete state. -/
theorem c4_unsupported_pin_noop_witness :
    pinMode st0 3 .Clock = (st0, []) ∧ pinMode st0 3 .Pwm = (st0, []) ∧
    pinMode st0 3 .Spi = (st0, []) ∧ setFreq st0 3 1 = some (st0, []) ∧
    setDutyCycle st0 3 5 6 = (st0, []) := by
  obtain ⟨h1, h2, h3, h4, h5⟩ := c4_unsupported_pin_noop st0 3 1 5 6
  exact ⟨h1 (by omega), h2 (by omega), h3 (by omega),
    h4 (by omega) (by omega), h5 (by omega)⟩

/-- C9 counterexample: `SetDutyCycle` performs its read-modify-write of
the PWM control register, and the data/range writes, without ever
acquiring the process-wide lock — its trace is not lock-guarded (it
contains no lock event at all). -/
theorem c9_counterexample_dutycycle_unguarded :
    guarded (setDutyCycle st0 12 1 4).2 = false ∧
    Ev.lock ∉ (setDutyCycle st0 12 1 4).2 := by
  constructor
  · rfl
  · decide

/-- C9 (amended): `PinMode` and `PullMode` acquire the process-wide
lock before every register access of their read-modify-write sequences
and release it afterwards, and so does the clock-register sequence of
`SetFreq` for the three dedicated clock groups; but `SetDutyCycle`
never takes the lock, and `SetFreq` on the shared PWM clock group runs
the `StopPwm`/`StartPwm` register writes outside the lock. -/
theorem c9_lock_guard_amended (st : RpioState) (pin f d c : Nat)
    (m : GMode) (pull : GPull) :
    guarded (pinMode st pin m).2 = true ∧
    guarded (pullMode st pin pull).2 = true ∧
    (∀ ctl dv res, pinClkRegs pin = some (ctl, dv, false) →
      setFreq st pin f = some res → guarded res.2 = true) ∧
    Ev.lock ∉ (setDutyCycle st pin d c).2 := by
  refine ⟨?_, ?_, ?_, ?_⟩
  · unfold pinMode
    cases m <;> dsimp only <;> first
      | rfl
      | (split_ifs <;> rfl)
  · unfold pullMode
    by_cases hbb : isBCM2711 st = true
    · rw [if_pos hbb]
      rfl
    · rw [if_neg hbb]
      cases pull <;> rfl
  · intro ctl dv res heq hsf
    unfold setFreq at hsf
    by_cases hf : f = 0
    · rw [if_pos hf] at hsf
      exact absurd hsf (by simp)
    · rw [if_neg hf, heq] at hsf
      dsimp only at hsf
      split at hsf
      · exact absurd hsf (by simp)
      · injection hsf with h
        subst h
        rfl
  · unfold setDutyCycle
    dsimp only
    split_ifs <;> simp

/-- C9 amended-claim witness: concrete state, pin 4, frequency 4800. -/
theorem c9_lock_guard_amended_witness :
    guarded (pinMode st0 4 .Output).2 = true ∧
    guarded (pullMode st0 4 .PullUp).2 = true ∧
    (∀ ctl dv res, pinClkRegs 4 = some (ctl, dv, false) →
      setFreq st0 4 4800 = some res → guarded res.2 = true) ∧
    Ev.lock ∉ (setDutyCycle st0 4 1 4).2 :=
  c9_lock_guard_amended st0 4 4800 1 4 .Output .PullUp

/-- The stop write (`PASSWORD | (ctl &^ enab)`) does not set the busy
bit, so the busy poll exits at once when the control register was not
busy. -/
theorem stop_write_not_busy (x : Nat) (hx : x &&& 128 = 0) :
    u32 (0x5A000000 ||| andNot32 x 16) &&& 128 = 0 := by
  have h7 : x.testBit 7 = false :=
    (land_two_pow_eq_zero_iff x 7).1 (by simpa using hx)
  have hp : Nat.testBit 0x5A000000 7 = false := by decide
  have hb : (u32 (0x5A000000 ||| andNot32 x 16)).testBit 7 = false := by
    rw [testBit_u32, Nat.testBit_or, testBit_andNot32, h7, hp]
    simp
  simpa using (land_two_pow_eq_zero_iff _ 7).2 hb

theorem upd_self_busy (f : Nat → Nat) (i : Nat) (hb : f i &&& 128 = 0) :
    ¬(upd f i (0x5A000000 ||| andNot32 (f i) 16) i &&& 128 ≠ 0) := by
  have h : upd f i (0x5A000000 ||| andNot32 (f i) 16) i =
      u32 (0x5A000000 ||| andNot32 (f i) 16) := by
    simp [upd]
  rw [h]
  exact not_not_intro (stop_write_not_busy (f i) hb)

/-- The divider word fits in 32 bits. -/
theorem divv_lt (freq : Nat) :
    0x5A000000 ||| (19200000 / freq &&& 4095) <<< 12 |||
      (19200000 % freq) <<< 12 / freq &&& 4095 < 2 ^ 32 := by
  refine Nat.or_lt_two_pow (Nat.or_lt_two_pow (by norm_num) ?_) ?_
  · rw [Nat.shiftLeft_eq]
    calc (19200000 / freq &&& 4095) * 2 ^ 12 ≤ 4095 * 2 ^ 12 :=
          Nat.mul_le_mul_right _ Nat.and_le_right
    _ < 2 ^ 32 := by norm_num
  · exact lt_of_le_of_lt Nat.and_le_right (by norm_num)

/-- C5: for every positive frequency and every pin of a clock group,
`SetFreq` writes `PASSWORD | (divi << 12) | divf` to the group's
divider register, with `divi = (19200000 / freq) & 4095` and
`divf = (((19200000 % freq) << 12) / freq) & 4095`, leaves the control
word `PASSWORD | mash | src | enab`, and sets the 1-stage MASH bit
(1 << 9) exactly when `divi >= 2` and `divf != 0`, using MASH = 0
otherwise.  (The busy bit of the control register is assumed clear —
otherwise the busy poll spins forever.) -/
theorem c5_setfreq_divider (st : RpioState) (pin freq ctl dv : Nat)
    (b : Bool) (hf : 0 < freq)
    (hregs : pinClkRegs pin = some (ctl, dv, b))
    (hbusy : st.clkMem ctl &&& 128 = 0) :
    ∃ st' tr, setFreq st pin freq = some (st', tr) ∧
      st'.clkMem dv =
        (0x5A000000 ||| (19200000 / freq &&& 4095) <<< 12 |||
          (19200000 % freq) <<< 12 / freq &&& 4095) ∧
      st'.clkMem ctl =
        (0x5A000000 |||
          (if 2 ≤ 19200000 / freq &&& 4095 ∧
              (19200000 % freq) <<< 12 / freq &&& 4095 ≠ 0
           then 512 else 0) ||| 1 ||| 16) ∧
      (st'.clkMem ctl &&& 512 ≠ 0 ↔
        2 ≤ 19200000 / freq &&& 4095 ∧
          (19200000 % freq) <<< 12 / freq &&& 4095 ≠ 0) := by
  have hf0 : ¬(freq = 0) := by omega
  have hinv : (ctl = 28 ∧ dv = 29 ∧ b = false) ∨
      (ctl = 30 ∧ dv = 31 ∧ b = false) ∨
      (ctl = 32 ∧ dv = 33 ∧ b = false) ∨
      (ctl = 40 ∧ dv = 41 ∧ b = true) := by
    unfold pinClkRegs at hregs
    split_ifs at hregs <;>
    · rw [Option.some.injEq, Prod.mk.injEq, Prod.mk.injEq] at hregs
      obtain ⟨e1, e2, e3⟩ := hregs
      subst e1
      subst e2
      subst e3
      simp
  rcases hinv with ⟨rfl, rfl, rfl⟩ | ⟨rfl, rfl, rfl⟩ | ⟨rfl, rfl, rfl⟩ |
    ⟨rfl, rfl, rfl⟩ <;>
  · unfold setFreq
    rw [if_neg hf0, hregs]
    dsimp only [stopPwm, startPwm, cond]
    rw [if_neg (upd_self_busy st.clkMem _ hbusy)]
    refine ⟨_, _, rfl, ?_, ?_, ?_⟩
    · norm_num [upd]
      exact Nat.mod_eq_of_lt (divv_lt freq)
    · norm_num [upd]
      by_cases hc : 19200000 / freq &&& 4095 < 2 ∨
          (19200000 % freq) <<< 12 / freq &&& 4095 = 0
      · have hc2 : ¬(2 ≤ 19200000 / freq &&& 4095 ∧
            (19200000 % freq) <<< 12 / freq &&& 4095 ≠ 0) := by omega
        rw [if_pos hc, if_neg hc2]
        decide
      · have hc2 : 2 ≤ 19200000 / freq &&& 4095 ∧
            (19200000 % freq) <<< 12 / freq &&& 4095 ≠ 0 := by omega
        rw [if_neg hc, if_pos hc2]
        decide
    · norm_num [upd]
      by_cases hc : 19200000 / freq &&& 4095 < 2 ∨
          (19200000 % freq) <<< 12 / freq &&& 4095 = 0
      · rw [if_pos hc]
        constructor
        · intro h
          exact absurd
            (by decide : u32 (0x5A000000 ||| 0 ||| 1 ||| 16) &&& 512 = 0) h
        · intro h
          exfalso
          omega
      · rw [if_neg hc]
        constructor
        · intro h
          omega
        · intro h
          decide

/-- C5 witness: pin 4 (clk0), frequency 4688, on the all-zero state. -/
theorem c5_setfreq_divider_witness :
    ∃ st' tr, setFreq st0 4 4688 = some (st', tr) ∧
      st'.clkMem 29 =
        (0x5A000000 ||| (19200000 / 4688 &&& 4095) <<< 12 |||
          (19200000 % 4688) <<< 12 / 4688 &&& 4095) ∧
      st'.clkMem 28 =
        (0x5A000000 |||
          (if 2 ≤ 19200000 / 4688 &&& 4095 ∧
              (19200000 % 4688) <<< 12 / 4688 &&& 4095 ≠ 0
           then 512 else 0) ||| 1 ||| 16) ∧
      (st'.clkMem 28 &&& 512 ≠ 0 ↔
        2 ≤ 19200000 / 4688 &&& 4095 ∧
          (19200000 % 4688) <<< 12 / 4688 &&& 4095 ≠ 0) :=
  c5_setfreq_divider st0 4 4688 28 29 false (by decide) (by decide)
    (by decide)

/-- A status bit supplied by the read-only part of the control/status
register is seen by every poll, whatever is stored. -/
theorem csRead_bit_pass (s : SpiHW) (k : Nat) (hk : k < 32)
    (h : s.ro &&& 1 <<< k ≠ 0) : SpiHW.csRead s &&& 1 <<< k ≠ 0 := by
  have hb : s.ro.testBit k = true := (land_one_shiftLeft_ne_zero_iff _ _).1 h
  apply (land_one_shiftLeft_ne_zero_iff _ _).2
  unfold SpiHW.csRead
  rw [testBit_u32, Nat.testBit_or, hb]
  simp [hk]

theorem or128_and128_ne (x : Nat) : (x ||| 128) &&& 128 ≠ 0 := by
  have hb : (x ||| 128).testBit 7 = true := by
    rw [Nat.testBit_or]
    simp [show Nat.testBit 128 7 = true from by decide]
  simpa using (land_one_shiftLeft_ne_zero_iff (x ||| 128) 7).2 hb

theorem andNot32_and_128 (x : Nat) : andNot32 x 128 &&& 128 = 0 := by
  apply Nat.eq_of_testBit_eq
  intro j
  rw [Nat.testBit_and, testBit_andNot32, Nat.zero_testBit]
  by_cases hj : j = 7
  · subst hj
    simp [show Nat.testBit 128 7 = true from by decide]
  · have h128 : Nat.testBit 128 j = false := by
      have h : (128 : Nat) = 2 ^ 7 := by norm_num
      rw [h]
      exact Nat.testBit_two_pow_of_ne (fun hh => hj hh.symm)
    simp [h128]

/-- The per-byte loop of `SpiExchange`: with the TXD and RXD status
bits present in the read-only status, it consumes the whole buffer,
logging each byte to the FIFO in order and producing the successive
FIFO read-backs, with the expected alternating poll/write/poll/read
trace. -/
theorem u32_andNot32_and_128 (x : Nat) :
    u32 (andNot32 x 128) &&& 128 = 0 := by
  have h : u32 (andNot32 x 128) = andNot32 x 128 :=
    Nat.mod_eq_of_lt (andNot32_lt_two_pow _ _)
  rw [h]
  exact andNot32_and_128 x

theorem spiXferLoop_spec (st : RpioState) (data : List Nat)
    (htxd : st.spiMem.ro &&& 1 <<< 18 ≠ 0)
    (hrxd : st.spiMem.ro &&& 1 <<< 17 ≠ 0) :
    spiXferLoop st data = some
      ({ st with spiMem := { st.spiMem with
          tx := st.spiMem.tx ++ data.map u32,
          rxCount := st.spiMem.rxCount + data.length } },
       (List.range data.length).map
         (fun i => u32 (st.spiMem.rx (st.spiMem.rxCount + i)) % 256),
       xferTrace data) := by
  induction data generalizing st with
  | nil => simp [spiXferLoop, xferTrace]
  | cons d rest ih =>
    unfold spiXferLoop
    rw [if_neg (csRead_bit_pass st.spiMem 18 (by norm_num) htxd)]
    dsimp only
    rw [if_neg (csRead_bit_pass
      { st.spiMem with tx := st.spiMem.tx ++ [u32 d] } 17 (by norm_num)
      hrxd)]
    rw [ih { st with spiMem := { st.spiMem with
        tx := st.spiMem.tx ++ [u32 d],
        rxCount := st.spiMem.rxCount + 1 } } htxd hrxd]
    refine congrArg some ?_
    simp only [Prod.mk.injEq]
    refine ⟨?_, ?_, ?_⟩
    · congr 1
      congr 1
      · simp only [List.length_cons]
        omega
      · simp [List.append_assoc]
    · simp only [List.length_cons]
      rw [List.range_succ_eq_map, List.map_cons, List.map_map]
      congr 1
      refine List.map_congr_left fun i _ => ?_
      have h : st.spiMem.rxCount + 1 + i = st.spiMem.rxCount + (i + 1) := by
        omega
      rw [h]
      rfl
    · simp [xferTrace]

/-- C6: `SpiExchange` preserves the buffer length and processes the
positions strictly in order: the trace is the FIFO-clear and the
Transfer-Active set (a write with bit 128 set), then for each byte in
buffer order one TXD poll, the FIFO write of that byte, one RXD poll
and the FIFO read that overwrites the same position, then the Done poll
and a control write with Transfer-Active cleared.  The bytes written
are exactly the original buffer, and position `i` receives the `i`-th
FIFO read-back. -/
theorem c6_spiexchange_inplace (st : RpioState) (data : List Nat)
    (htxd : st.spiMem.ro &&& 1 <<< 18 ≠ 0)
    (hrxd : st.spiMem.ro &&& 1 <<< 17 ≠ 0)
    (hdone : st.spiMem.ro &&& 1 <<< 16 ≠ 0)
    (hdata : ∀ x ∈ data, x < 256) :
    ∃ st' out v t w,
      spiExchange st data = some (st', out,
        [Ev.rd .spiBank 0, Ev.wr .spiBank 0 v, Ev.rd .spiBank 0,
         Ev.wr .spiBank 0 t] ++ xferTrace data ++
        [Ev.rd .spiBank 0, Ev.rd .spiBank 0, Ev.wr .spiBank 0 w]) ∧
      out.length = data.length ∧
      out = (List.range data.length).map
        (fun i => st.spiMem.rx (st.spiMem.rxCount + i) % 256) ∧
      st'.spiMem.tx = st.spiMem.tx ++ data ∧
      t &&& 128 ≠ 0 ∧ w &&& 128 = 0 ∧ st'.spiMem.cs &&& 128 = 0 := by
  unfold spiExchange
  dsimp only [clearSpiTxRxFifo]
  rw [spiXferLoop_spec
    { st with spiMem := { st.spiMem with
        cs := u32 (SpiHW.csRead { st.spiMem with
          cs := u32 (SpiHW.csRead st.spiMem ||| 48) } ||| 128) } }
    data htxd hrxd]
  dsimp only
  rw [if_neg (csRead_bit_pass
    { st.spiMem with
        cs := u32 (SpiHW.csRead { st.spiMem with
          cs := u32 (SpiHW.csRead st.spiMem ||| 48) } ||| 128),
        rxCount := st.spiMem.rxCount + data.length,
        tx := st.spiMem.tx ++ List.map u32 data }
    16 (by norm_num) hdone)]
  refine ⟨_, _, _, _, _, rfl, ?_, ?_, ?_, ?_, ?_, ?_⟩
  · simp
  · refine List.map_congr_left fun i _ => ?_
    exact Nat.mod_mod_of_dvd _ (by norm_num)
  · dsimp only
    have hmap : data.map u32 = data := by
      conv_rhs => rw [← List.map_id data]
      refine List.map_congr_left fun x hx => ?_
      have hxlt : x < 2 ^ 32 := lt_trans (hdata x hx) (by norm_num)
      exact Nat.mod_eq_of_lt hxlt
    rw [hmap]
  · exact or128_and128_ne _
  · exact andNot32_and_128 _
  · exact u32_andNot32_and_128 _

/-- C6 witness: exchanging the buffer `[0xDE, 0xAD, 0xBE]` on a mapped
device. -/
theorem c6_spiexchange_inplace_witness :
    ∃ st' out v t w,
      spiExchange stSpi [0xDE, 0xAD, 0xBE] = some (st', out,
        [Ev.rd .spiBank 0, Ev.wr .spiBank 0 v, Ev.rd .spiBank 0,
         Ev.wr .spiBank 0 t] ++ xferTrace [0xDE, 0xAD, 0xBE] ++
        [Ev.rd .spiBank 0, Ev.rd .spiBank 0, Ev.wr .spiBank 0 w]) ∧
      out.length = ([0xDE, 0xAD, 0xBE] : List Nat).length ∧
      out = (List.range ([0xDE, 0xAD, 0xBE] : List Nat).length).map
        (fun i => stSpi.spiMem.rx (stSpi.spiMem.rxCount + i) % 256) ∧
      st'.spiMem.tx = stSpi.spiMem.tx ++ [0xDE, 0xAD, 0xBE] ∧
      t &&& 128 ≠ 0 ∧ w &&& 128 = 0 ∧ st'.spiMem.cs &&& 128 = 0 :=
  c6_spiexchange_inplace stSpi [0xDE, 0xAD, 0xBE] (by decide) (by decide)
    (by decide) (by decide)

/-- C8: `SpiBegin` returns the registers-not-mapped error exactly when
the control/status register reads back as zero immediately after the
reset write of zero (equivalently, when the read-only status bits are
all zero, as they are when the window is unmapped); on the error path
it has changed no pin mode, not cleared the FIFOs and not set the
divider — its only effect is the control-register reset, and its trace
is that write and the read-back.  `SpiBegin` is the only SPI operation
of the source with an error return value. -/
theorem c8_spibegin_map_error (st : RpioState) (dev : Nat) :
    ((spiBegin st dev).2.2 = true ↔
      SpiHW.csRead { st.spiMem with cs := 0 } = 0) ∧
    ((spiBegin st dev).2.2 = true →
      (spiBegin st dev).1 =
        { st with spiMem := { st.spiMem with cs := 0 } } ∧
      (spiBegin st dev).2.1 = [Ev.wr .spiBank 0 0, Ev.rd .spiBank 0]) := by
  unfold spiBegin
  by_cases h : SpiHW.csRead { st.spiMem with cs := 0 } = 0
  · rw [if_pos h]
    exact ⟨by simp [h], fun _ => ⟨rfl, rfl⟩⟩
  · rw [if_neg h]
    constructor
    · simp [h]
    · intro hcontra
      exact absurd hcontra (by simp)

/-- C8 witness: on the all-zero (unmapped) state the error is returned,
the state change is only the control-register reset, and the trace is
the reset write and the read-back. -/
theorem c8_spibegin_map_error_witness :
    (spiBegin st0 0).1 = { st0 with spiMem := { st0.spiMem with cs := 0 } } ∧
    (spiBegin st0 0).2.1 = [Ev.wr .spiBank 0 0, Ev.rd .spiBank 0] :=
  (c8_spibegin_map_error st0 0).2 (by decide)

end RpioModel
